import Mathlib

/-!
Verification of the Selection-to-Plan Synthesis Engine of
`src/js/project-planner.js` (class `ProjectPlanner`).

The JavaScript is shallowly embedded: strings are Lean `String`s
(lists of characters), JavaScript numbers arising here are `Nat`
(all arithmetic in the source is on non-negative integers followed by
`Math.ceil`, which is folded into exact natural division as proved in
the claim-6 theorem), the `Set` of selected ids is a duplicate-free
list in insertion order, and the object used by
`groupTasksByCategory` is a list of key/value pairs whose enumeration
order follows the ECMAScript ordinary-object rule (array-index keys
first, ascending, then the rest in insertion order).  DOM reads and
writes (checkbox state, modal creation, counters) are presentation
effects outside the data model and are not part of the embedding.
-/

namespace ProjectPlanner

/-- A task record, as assembled by `extractTaskData` from a task card:
`id` from `data-task`, textual fields from the card, `category` from
`data-category` (defaulting to "general"). -/
structure Task where
  id : String
  title : String
  description : String
  duration : String
  difficulty : String
  category : String
deriving DecidableEq, Repr

/-- The mutable state of a `ProjectPlanner` instance: `selectedTasks`
models the JavaScript `Set` of ids as its duplicate-free insertion-order
element list, and `projectPlan` is the `projectPlan` array. -/
structure SelectionState where
  selectedTasks : List String
  projectPlan : List Task
deriving DecidableEq, Repr

/-- The state built by the constructor: empty set, empty plan. -/
def emptySelection : SelectionState := { selectedTasks := [], projectPlan := [] }

/-- `Set.prototype.add`: appends the element unless already present
(insertion order is kept, no duplicate is created). -/
def setAdd (l : List String) (x : String) : List String :=
  if x ∈ l then l else l ++ [x]

/-- `Set.prototype.delete`: removes the element, keeping the order of
the rest. -/
def setDelete (l : List String) (x : String) : List String :=
  l.filter (fun y => y ≠ x)

/-- `addToProjectPlan`: `findIndex(task => task.id === taskData.id)`
is `-1` exactly when no entry has the id, and only then is the record
pushed. -/
def addToProjectPlan (plan : List Task) (taskData : Task) : List Task :=
  if plan.any (fun task => task.id = taskData.id) then plan else plan ++ [taskData]

/-- `removeFromProjectPlan`: keeps the entries whose id differs. -/
def removeFromProjectPlan (plan : List Task) (taskId : String) : List Task :=
  plan.filter (fun task => task.id ≠ taskId)

/-- The checked branch of `handleTaskSelection`: add the id to the set
and the record to the plan. -/
def selectTask (st : SelectionState) (taskData : Task) : SelectionState :=
  { selectedTasks := setAdd st.selectedTasks taskData.id,
    projectPlan := addToProjectPlan st.projectPlan taskData }

/-- The unchecked branch of `handleTaskSelection`: remove the id from
the set and the record from the plan. -/
def deselectTask (st : SelectionState) (taskId : String) : SelectionState :=
  { selectedTasks := setDelete st.selectedTasks taskId,
    projectPlan := removeFromProjectPlan st.projectPlan taskId }

/-- `handleTaskSelection`, with the data already extracted from the
card; the `classList` updates, `updateSelectedCount` and `savePlan`
side effects act outside this state. -/
def handleTaskSelection (st : SelectionState) (checked : Bool) (taskData : Task) :
    SelectionState :=
  if checked then selectTask st taskData else deselectTask st taskData.id

/-- One externally triggered mutation of the selection state. -/
inductive SelectionOp where
  | select (taskData : Task)
  | deselect (taskId : String)
deriving DecidableEq, Repr

/-- Apply one mutation. -/
def applyOp (st : SelectionState) : SelectionOp → SelectionState
  | SelectionOp.select t => selectTask st t
  | SelectionOp.deselect i => deselectTask st i

/-- Run a sequence of mutations from the empty state. -/
def runOps (ops : List SelectionOp) : SelectionState :=
  ops.foldl applyOp emptySelection

/-! ## Duration parsing

`parseDuration` runs `durationStr.match(/(\d+)(?:-(\d+))?\s*(day|week)/i)`
and, on a match, computes `Math.ceil` of the midpoint of the bounds
(times 7 for weeks); otherwise it returns the fixed default 2.  The
regular expression is embedded as an explicit leftmost-match scanner.
Greedy `\d+` and `\s*` never need to give characters back here because
the pattern element after each of them cannot match a digit or a
whitespace character, so maximal munch is faithful; the one real
backtracking point, failing after the optional `-(\d+)` group, is
modelled literally. -/

/-- The characters matched by the JavaScript regex class `\s`. -/
def isJsSpace (c : Char) : Bool :=
  let n := c.toNat
  n = 32 ∨ n = 9 ∨ n = 10 ∨ n = 11 ∨ n = 12 ∨ n = 13 ∨ n = 160 ∨ n = 5760 ∨
    (8192 ≤ n ∧ n ≤ 8202) ∨ n = 8232 ∨ n = 8233 ∨ n = 8239 ∨ n = 8287 ∨
    n = 12288 ∨ n = 65279

/-- Value of a non-empty digit string, as `parseInt` reads it. -/
def digitsVal (cs : List Char) : Nat :=
  cs.foldl (fun a c => a * 10 + (c.toNat - 48)) 0

/-- Greedy `(\d+)`: the maximal leading digit run and the rest, or
`none` when the text does not start with a digit. -/
def matchDigits (cs : List Char) : Option (Nat × List Char) :=
  let ds := cs.takeWhile Char.isDigit
  if ds = [] then none else some (digitsVal ds, cs.dropWhile Char.isDigit)

/-- The lower-case image of an ASCII character, as `toLowerCase` acts
on the letters occurring in `day`/`week` matches. -/
def toLowerAscii (c : Char) : Char :=
  if 65 ≤ c.toNat ∧ c.toNat ≤ 90 then Char.ofNat (c.toNat + 32) else c

/-- Case-insensitive literal match of `pat` against a prefix of `cs`. -/
def stripCaseless : List Char → List Char → Option (List Char)
  | [], rest => some rest
  | _ :: _, [] => none
  | p :: ps, c :: rest => if toLowerAscii c = p then stripCaseless ps rest else none

/-- The alternation `(day|week)` (case-insensitive), reported after the
source's `toLowerCase` comparison as `true` for a week unit. -/
def matchUnitToken (cs : List Char) : Option Bool :=
  match stripCaseless ['d', 'a', 'y'] cs with
  | some _ => some false
  | none =>
    match stripCaseless ['w', 'e', 'e', 'k'] cs with
    | some _ => some true
    | none => none

/-- Attempt the whole pattern at the current position, producing the
values of the two numeric captures (the second defaulting to the first)
and the unit flag. -/
def matchDurationAt (cs : List Char) : Option (Nat × Nat × Bool) :=
  match matchDigits cs with
  | none => none
  | some (mn, rest) =>
    let finish := fun (mx : Nat) (r : List Char) =>
      match matchUnitToken (r.dropWhile isJsSpace) with
      | some wk => some (mn, mx, wk)
      | none => none
    match rest with
    | '-' :: r2 =>
      match matchDigits r2 with
      | some (mx, r3) =>
        match finish mx r3 with
        | some res => some res
        | none => finish mn rest
      | none => finish mn rest
    | _ => finish mn rest

/-- Leftmost match of the duration pattern, as `String.prototype.match`
finds it. -/
def findDurationMatch : List Char → Option (Nat × Nat × Bool)
  | [] => none
  | c :: cs =>
    match matchDurationAt (c :: cs) with
    | some r => some r
    | none => findDurationMatch cs

/-- `parseDuration`.  On a match the source computes
`Math.ceil((min+max)/2)` for days and `Math.ceil((min+max)/2*7)` for
weeks; over the naturals these are `(min+max+1)/2` and
`(7*(min+max)+1)/2` (the claim-6 theorem proves this equals the
rational ceiling).  Without a match the default 2 is returned. -/
def parseDuration (durationStr : String) : Nat :=
  match findDurationMatch durationStr.data with
  | some (mn, mx, wk) => if wk then (7 * (mn + mx) + 1) / 2 else (mn + mx + 1) / 2
  | none => 2

/-! ## Timeline generation -/

/-- One entry pushed by `generateTimeline`. -/
structure TimelineEntry where
  task : String
  startDay : Nat
  endDay : Nat
  duration : Nat
deriving DecidableEq, Repr

/-- The body of the `forEach` in `generateTimeline`: the accumulator is
the pair of the `timeline` array and the running `totalDays`. -/
def timelineStep (acc : List TimelineEntry × Nat) (task : Task) :
    List TimelineEntry × Nat :=
  let duration := parseDuration task.duration
  (acc.1 ++ [{ task := task.title, startDay := acc.2 + 1,
               endDay := acc.2 + duration, duration := duration }],
   acc.2 + duration)

/-- `generateTimeline`, returning `{ timeline, totalDays }`. -/
def generateTimeline (plan : List Task) : List TimelineEntry × Nat :=
  plan.foldl timelineStep ([], 0)

/-- Closed form of the timeline built from a given running start. -/
def timelineFrom (s : Nat) : List Task → List TimelineEntry
  | [] => []
  | task :: rest =>
    let duration := parseDuration task.duration
    { task := task.title, startDay := s + 1, endDay := s + duration,
      duration := duration } :: timelineFrom (s + duration) rest

/-- Sum of the parsed durations of a plan. -/
def totalDuration (plan : List Task) : Nat :=
  (plan.map (fun task => parseDuration task.duration)).sum

/-! ## Grouping by category

`groupTasksByCategory` accumulates into a plain object literal, so the
order `Object.entries`/`Object.keys` later reports is the ECMAScript
ordinary-object key order: keys that are array indices (the canonical
decimal string of an integer below 2^32 - 1) first, in ascending
numeric order, then the remaining string keys in insertion order.
Insertion order here is the order in which categories are first seen
while scanning the plan. -/

/-- Decides whether a string is an ECMAScript array index: the
canonical decimal form (no leading zero except "0" itself) of a number
below 2^32 - 1. -/
def isArrayIndex (s : String) : Option Nat :=
  let cs := s.data
  if cs ≠ [] ∧ cs.all Char.isDigit ∧ (cs = ['0'] ∨ cs.head? ≠ some '0') ∧
      digitsVal cs < 4294967295
  then some (digitsVal cs) else none

/-- Insertion of a keyed element into a list sorted by the numeric key. -/
def insertByIdx (p : String × Nat) : List (String × Nat) → List (String × Nat)
  | [] => [p]
  | q :: rest => if p.2 ≤ q.2 then p :: q :: rest else q :: insertByIdx p rest

/-- Insertion sort by the numeric key (array-index keys are pairwise
distinct numbers, so stability is irrelevant here). -/
def sortByIdx : List (String × Nat) → List (String × Nat)
  | [] => []
  | p :: rest => insertByIdx p (sortByIdx rest)

/-- First-occurrence list of the keys, the order in which the object
literal acquires its properties. -/
def insertionOrderKeys (cats : List String) : List String :=
  cats.foldl setAdd []

/-- The key enumeration order of an ordinary object whose properties
were created in the given insertion order. -/
def objectKeysOrder (insertion : List String) : List String :=
  let indexKeys := insertion.filterMap
    (fun s => (isArrayIndex s).map (fun n => (s, n)))
  (sortByIdx indexKeys).map Prod.fst ++
    insertion.filter (fun s => (isArrayIndex s).isNone)

/-- `groupTasksByCategory`: the object maps each category seen in the
plan to the tasks pushed under it in scan order; the association list
is given in the order `Object.entries` reports. -/
def groupTasksByCategory (plan : List Task) : List (String × List Task) :=
  (objectKeysOrder (insertionOrderKeys (plan.map Task.category))).map
    (fun c => (c, plan.filter (fun task => task.category = c)))

/-! ## The plan document -/

/-- `createPlanDocument`.  The two dates are modelled as day ordinals:
`createdDate` is the current day and `setDate(getDate() + totalDays)`
advances it by `totalDays` calendar days; the locale formatting of the
source is presentation only. -/
structure PlanDocument where
  title : String
  createdDate : Nat
  estimatedDuration : String
  estimatedCompletion : Nat
  taskCount : Nat
  categories : Nat
  tasksByCategory : List (String × List Task)
  timeline : List TimelineEntry
  totalDays : Nat
deriving DecidableEq, Repr

/-- `createPlanDocument(tasksByCategory, timeline)`, reading
`this.projectPlan` for the task count. -/
def createPlanDocument (today : Nat) (st : SelectionState)
    (tasksByCategory : List (String × List Task))
    (timeline : List TimelineEntry × Nat) : PlanDocument :=
  { title := "UX Project Plan",
    createdDate := today,
    estimatedDuration := toString timeline.2 ++ " days",
    estimatedCompletion := today + timeline.2,
    taskCount := st.projectPlan.length,
    categories := tasksByCategory.length,
    tasksByCategory := tasksByCategory,
    timeline := timeline.1,
    totalDays := timeline.2 }

/-- `generateProjectPlan`: rejected with the `alert` text when the
selected set is empty (no document is built), otherwise the document
is assembled from the grouping and the timeline; `showPlanModal` is
presentation.  `Object.keys(tasksByCategory).length` is the length of
the entry list. -/
def generateProjectPlan (today : Nat) (st : SelectionState) :
    Except String PlanDocument :=
  if st.selectedTasks.length = 0 then
    Except.error "Please select at least one task to create a project plan."
  else
    let tasksByCategory := groupTasksByCategory st.projectPlan
    let timeline := generateTimeline st.projectPlan
    Except.ok (createPlanDocument today st tasksByCategory timeline)

/-! ## Persistence

`savePlan` writes `JSON.stringify(this.projectPlan)` under
`uxProjectPlan` and `JSON.stringify([...this.selectedTasks])` under
`uxSelectedTasks`; `loadSavedPlan` reads both back inside one
`try`/`catch`.  A stored string is abstracted by its `JSON.parse`
outcome: `corrupt` stands for a string on which `JSON.parse` throws,
`parsed` for a string parsing to the canonical encoding the engine
itself writes (`JSON.parse(JSON.stringify(v))` recovers such array-of-
plain-records data exactly).  `localStorage.getItem` returning `null`
is the `none` slot; the empty string is falsy for the `if (savedPlan)`
guards exactly like `null`, so it is also abstracted as `none`. -/

/-- A stored `uxProjectPlan` string, by parse outcome. -/
inductive StoredPlan where
  | corrupt
  | parsed (p : List Task)
deriving DecidableEq, Repr

/-- A stored `uxSelectedTasks` string, by parse outcome. -/
inductive StoredIds where
  | corrupt
  | parsed (ids : List String)
deriving DecidableEq, Repr

/-- The two `localStorage` slots the engine uses. -/
structure Storage where
  uxProjectPlan : Option StoredPlan
  uxSelectedTasks : Option StoredIds
deriving DecidableEq, Repr

/-- `savePlan`: both keys are overwritten with the serialized state. -/
def savePlan (st : SelectionState) : Storage :=
  { uxProjectPlan := some (StoredPlan.parsed st.projectPlan),
    uxSelectedTasks := some (StoredIds.parsed st.selectedTasks) }

/-- The second half of `loadSavedPlan`: each restored id is added to
the `Set`; the checkbox re-marking is presentation and does not touch
the state.  The boolean records whether the `catch` logged an error. -/
def loadSavedTasks (st : SelectionState) (slot : Option StoredIds) :
    SelectionState × Bool :=
  match slot with
  | some StoredIds.corrupt => (st, true)
  | some (StoredIds.parsed ids) =>
    ({ st with selectedTasks := ids.foldl setAdd st.selectedTasks }, false)
  | none => (st, false)

/-- `loadSavedPlan` on the pre-existing state `st` (the constructor
calls it on the empty state): a throwing `JSON.parse` of the plan slot
aborts the whole `try` block before the ids are touched. -/
def loadSavedPlan (st : SelectionState) (s : Storage) : SelectionState × Bool :=
  match s.uxProjectPlan with
  | some StoredPlan.corrupt => (st, true)
  | some (StoredPlan.parsed p) => loadSavedTasks { st with projectPlan := p } s.uxSelectedTasks
  | none => loadSavedTasks st s.uxSelectedTasks

/-! ## Category-name formatting -/

/-- The upper-case image of an ASCII character, as `toUpperCase` acts
on a one-character string (non-letters are unchanged). -/
def jsToUpperChar (c : Char) : Char :=
  if 97 ≤ c.toNat ∧ c.toNat ≤ 122 then Char.ofNat (c.toNat - 32) else c

/-- `String.prototype.replace` with the plain pattern "-": only the
first occurrence is replaced. -/
def replaceFirstHyphen : List Char → List Char
  | [] => []
  | c :: cs => if c = '-' then ' ' :: cs else c :: replaceFirstHyphen cs

/-- `formatCategoryName`: upper-case `charAt(0)` concatenated with
`slice(1).replace('-', ' ')`. -/
def formatCategoryName (category : String) : String :=
  match category.data with
  | [] => { data := [] }
  | c :: cs => { data := jsToUpperChar c :: replaceFirstHyphen cs }

/-- Modelled from the spec words of claim 10, for comparison: the first
character is upper-cased and the first hyphen of the whole string is
replaced by a space. -/
def claimedFormatCategoryName (category : String) : String :=
  match category.data with
  | [] => { data := [] }
  | c :: cs => { data := replaceFirstHyphen (jsToUpperChar c :: cs) }

/-- The category headings of the plan-modal rendering
(`generatePlanHTML`), in document order. -/
def planModalCategoryHeadings (d : PlanDocument) : List String :=
  d.tasksByCategory.map (fun e => formatCategoryName e.1)

/-- The category headings of the email body (`generateEmailBody`). -/
def emailBodyCategoryHeadings (d : PlanDocument) : List String :=
  d.tasksByCategory.map (fun e => formatCategoryName e.1)

/-- The category headings of the downloadable document
(`generatePDFHTML`). -/
def pdfDocumentCategoryHeadings (d : PlanDocument) : List String :=
  d.tasksByCategory.map (fun e => formatCategoryName e.1)

/-! ## Concrete fixtures used by examples, witnesses and
counterexamples -/

/-- A task whose duration parses to 3 days. -/
def taskAlpha : Task :=
  { id := "a", title := "A", description := "", duration := "3 days",
    difficulty := "Intermediate", category := "general" }

/-- A task whose duration parses to 1 day. -/
def taskBeta : Task :=
  { id := "b", title := "B", description := "", duration := "1 day",
    difficulty := "Beginner", category := "general" }

/-- A task whose duration parses to 4 days. -/
def taskGamma : Task :=
  { id := "c", title := "C", description := "", duration := "4 days",
    difficulty := "Advanced", category := "general" }

/-- A task in the non-numeric category "b". -/
def taskCatB : Task :=
  { id := "t1", title := "T1", description := "", duration := "1 day",
    difficulty := "Beginner", category := "b" }

/-- A task in the array-index-like category "1". -/
def taskCatOne : Task :=
  { id := "t2", title := "T2", description := "", duration := "1 day",
    difficulty := "Beginner", category := "1" }

/-- Tasks in categories x, y, x, z for the grouping example. -/
def taskX1 : Task :=
  { id := "x1", title := "X1", description := "", duration := "1 day",
    difficulty := "Beginner", category := "x" }

/-- Second x-category task. -/
def taskX2 : Task :=
  { id := "x2", title := "X2", description := "", duration := "1 day",
    difficulty := "Beginner", category := "x" }

/-- A y-category task. -/
def taskY : Task :=
  { id := "y1", title := "Y1", description := "", duration := "1 day",
    difficulty := "Beginner", category := "y" }

/-- A z-category task. -/
def taskZ : Task :=
  { id := "z1", title := "Z1", description := "", duration := "1 day",
    difficulty := "Beginner", category := "z" }

/-! ## Helper lemmas -/

/-- The rational ceiling of `a / 2` is `(a + 1) / 2` in natural
division; this justifies folding `Math.ceil` into the `parseDuration`
embedding. -/
theorem ceil_half_eq (a : Nat) : ⌈(a : ℚ) / 2⌉₊ = (a + 1) / 2 := by
  rcases Nat.even_or_odd a with ⟨k, hk⟩ | ⟨k, hk⟩
  · subst hk
    rw [show ((k + k : Nat) : ℚ) / 2 = (k : ℚ) by push_cast; ring, Nat.ceil_natCast]
    omega
  · subst hk
    rw [show (2 * k + 1 + 1) / 2 = k + 1 by omega,
      Nat.ceil_eq_iff (by omega : k + 1 ≠ 0)]
    constructor
    · push_cast [Nat.add_sub_cancel]
      rw [lt_div_iff₀ (by norm_num : (0 : ℚ) < 2)]
      ring_nf
      linarith
    · rw [div_le_iff₀ (by norm_num : (0 : ℚ) < 2)]
      push_cast
      linarith

/-! ## Claims about duration parsing -/

/-- Claim C1 (corrected).  The claim states that `parseDuration`
always returns at least 1 and clamps a matched zero bound; the source
has no clamp and returns 0 on "0 days".  Amended: the result is at
least 1 whenever the matched bounds have a positive sum, and the
default 2 is returned when nothing matches, but a matched minimum and
maximum of 0 produce the day count 0. -/
theorem claim1_clamp_corrected :
    (∀ (s : String) (mn mx : Nat) (wk : Bool),
       findDurationMatch s.data = some (mn, mx, wk) → 1 ≤ mn + mx →
       1 ≤ parseDuration s) ∧
    (∀ s : String, findDurationMatch s.data = none → parseDuration s = 2) ∧
    parseDuration "0 days" = 0 := by
  refine ⟨?_, ?_, by decide⟩
  · intro s mn mx wk h hmn
    simp only [parseDuration, h]
    cases wk <;> simp only [if_true, if_false, Bool.false_eq_true] <;>
      rw [Nat.one_le_div_iff (by norm_num)] <;> omega
  · intro s h
    simp only [parseDuration, h]

/-- Claim C1, counterexample: on the input "0 days" the source returns
the day count 0, not a value clamped to at least 1. -/
theorem claim1_counterexample :
    parseDuration "0 days" = 0 ∧ ¬ 1 ≤ parseDuration "0 days" := by decide

/-- Claim C1, witness: the amended theorem applied to "2-4 days"
(matched, positive bounds) and to "zzz" (unmatched). -/
theorem claim1_witness : 1 ≤ parseDuration "2-4 days" ∧ parseDuration "zzz" = 2 :=
  ⟨claim1_clamp_corrected.1 "2-4 days" 2 4 false (by decide) (by decide),
   claim1_clamp_corrected.2.1 "zzz" (by decide)⟩

/-- Claim C6 (confirmed).  `parseDuration` takes the midpoint of the
extracted bounds (the second defaulting to the first inside
`findDurationMatch`), multiplies by 7 for week units, rounds up to a
whole day, and falls back to the fixed default 2 when the text does
not match; in particular the four quoted examples hold. -/
theorem claim6_parse_midpoint :
    parseDuration "2-4 days" = 3 ∧ parseDuration "1 week" = 7 ∧
    parseDuration "3-5 weeks" = 28 ∧ parseDuration "garbage" = 2 ∧
    ∀ (s : String) (mn mx : Nat) (wk : Bool),
      findDurationMatch s.data = some (mn, mx, wk) →
      parseDuration s = ⌈(((mn : ℚ) + (mx : ℚ)) / 2) * (if wk then 7 else 1)⌉₊ := by
  refine ⟨by decide, by decide, by decide, by decide, ?_⟩
  intro s mn mx wk h
  simp only [parseDuration, h]
  cases wk
  · rw [if_neg (by simp), if_neg (by simp),
      show ((mn : ℚ) + (mx : ℚ)) / 2 * 1 = ((mn + mx : Nat) : ℚ) / 2 by push_cast; ring,
      ceil_half_eq]
  · rw [if_pos rfl, if_pos rfl,
      show ((mn : ℚ) + (mx : ℚ)) / 2 * 7 = ((7 * (mn + mx) : Nat) : ℚ) / 2 by
        push_cast; ring,
      ceil_half_eq]

/-- Claim C6, witness: the midpoint formula applied to the matched
input "2 weeks". -/
theorem claim6_witness :
    parseDuration "2 weeks" = ⌈(((2 : ℚ) + (2 : ℚ)) / 2) * (if true then 7 else 1)⌉₊ :=
  claim6_parse_midpoint.2.2.2.2 "2 weeks" 2 2 true (by decide)

/-! ## Claims about the selection state -/

/-- The selection invariant: the plan has pairwise distinct ids and
its id set coincides with the selected-id set. -/
def SelInv (st : SelectionState) : Prop :=
  (st.projectPlan.map Task.id).Nodup ∧
    ∀ i : String, i ∈ st.projectPlan.map Task.id ↔ i ∈ st.selectedTasks

/-- Removing by id commutes with projecting the ids. -/
theorem map_id_filter_ne (plan : List Task) (x : String) :
    (plan.filter (fun task => task.id ≠ x)).map Task.id
      = (plan.map Task.id).filter (fun i => i ≠ x) := by
  induction plan with
  | nil => rfl
  | cons t ts ih => by_cases h : t.id = x <;> simpa [List.filter_cons, h] using ih

/-- Selecting preserves the invariant. -/
theorem selInv_selectTask (st : SelectionState) (t : Task) (h : SelInv st) :
    SelInv (selectTask st t) := by
  obtain ⟨hnd, hmem⟩ := h
  by_cases hin : t.id ∈ st.projectPlan.map Task.id
  · have hany : st.projectPlan.any (fun u => decide (u.id = t.id)) = true := by
      simp only [List.any_eq_true, decide_eq_true_eq]
      obtain ⟨u, hu, hid⟩ := List.mem_map.mp hin
      exact ⟨u, hu, hid⟩
    have hsel : t.id ∈ st.selectedTasks := (hmem t.id).mp hin
    refine ⟨?_, ?_⟩ <;>
      simp [selectTask, addToProjectPlan, setAdd, hany, hsel, hnd, hmem]
  · have hany : st.projectPlan.any (fun u => decide (u.id = t.id)) = false := by
      simp only [List.any_eq_false, decide_eq_true_eq]
      intro u hu hid
      exact hin (List.mem_map.mpr ⟨u, hu, hid⟩)
    have hsel : t.id ∉ st.selectedTasks := fun hs => hin ((hmem t.id).mpr hs)
    refine ⟨?_, ?_⟩
    · simp [selectTask, addToProjectPlan, setAdd, hany, hsel, List.nodup_append,
        hnd, hin]
    · intro i
      simp only [selectTask, addToProjectPlan, setAdd, hany, if_neg hsel,
        Bool.false_eq_true, if_false, List.map_append, List.mem_append,
        List.map_cons, List.map_nil, List.mem_singleton]
      exact or_congr_left (hmem i)

/-- Deselecting preserves the invariant. -/
theorem selInv_deselectTask (st : SelectionState) (x : String) (h : SelInv st) :
    SelInv (deselectTask st x) := by
  obtain ⟨hnd, hmem⟩ := h
  refine ⟨?_, ?_⟩
  · simp only [deselectTask, removeFromProjectPlan, map_id_filter_ne]
    exact hnd.filter _
  · intro i
    simp only [deselectTask, removeFromProjectPlan, setDelete, map_id_filter_ne,
      List.mem_filter, decide_eq_true_eq]
    exact and_congr_left (fun _ => hmem i)

/-- The invariant holds along every run from any invariant state. -/
theorem selInv_foldl :
    ∀ (ops : List SelectionOp) (st : SelectionState), SelInv st →
      SelInv (ops.foldl applyOp st) := by
  intro ops
  induction ops with
  | nil => exact fun st h => h
  | cons op rest ih =>
    intro st h
    rw [List.foldl_cons]
    refine ih _ ?_
    cases op with
    | select t => exact selInv_selectTask st t h
    | deselect i => exact selInv_deselectTask st i h

/-- The empty state satisfies the invariant. -/
theorem selInv_empty : SelInv emptySelection := by
  refine ⟨?_, ?_⟩ <;> simp [emptySelection]

/-- Claim C2 (confirmed).  After any finite sequence of select and
deselect operations from the empty state, the plan has exactly one
entry per selected id (its ids are pairwise distinct and coincide with
the selected-id set), and re-adding an id already present in the plan
appends nothing. -/
theorem claim2_selection_invariant :
    (∀ ops : List SelectionOp,
       ((runOps ops).projectPlan.map Task.id).Nodup ∧
       ∀ i : String,
         i ∈ (runOps ops).projectPlan.map Task.id ↔ i ∈ (runOps ops).selectedTasks) ∧
    ∀ (plan : List Task) (t : Task), t.id ∈ plan.map Task.id →
      addToProjectPlan plan t = plan := by
  refine ⟨fun ops => selInv_foldl ops emptySelection selInv_empty, ?_⟩
  intro plan t h
  have hany : plan.any (fun u => decide (u.id = t.id)) = true := by
    simp only [List.any_eq_true, decide_eq_true_eq]
    obtain ⟨u, hu, hid⟩ := List.mem_map.mp h
    exact ⟨u, hu, hid⟩
  simp [addToProjectPlan, hany]

/-- Claim C2, witness: the invariant after a double select of the same
task, and the no-op re-add at a concrete plan. -/
theorem claim2_witness :
    ((runOps [SelectionOp.select taskAlpha,
              SelectionOp.select taskAlpha]).projectPlan.map Task.id).Nodup ∧
    addToProjectPlan [taskAlpha] taskAlpha = [taskAlpha] :=
  ⟨(claim2_selection_invariant.1 _).1,
   claim2_selection_invariant.2 [taskAlpha] taskAlpha (by decide)⟩

/-- Claim C7 (corrected).  The claim states the pair select then
deselect restores every state; it fails when the task is already
selected, because the deselect then removes the pre-existing entry.
Amended: for every state in which the id of `t` is neither in
`selectedIds` nor carried by any plan entry, selecting `t` and then
deselecting `t.id` restores the state exactly. -/
theorem claim7_select_deselect_inverse :
    ∀ (st : SelectionState) (t : Task),
      t.id ∉ st.selectedTasks → (∀ u ∈ st.projectPlan, u.id ≠ t.id) →
      deselectTask (selectTask st t) t.id = st := by
  intro st t hsel hplan
  obtain ⟨sel, plan⟩ := st
  have hany : plan.any (fun u => decide (u.id = t.id)) = false := by
    simp only [List.any_eq_false, decide_eq_true_eq]
    exact fun u hu => hplan u hu
  simp only [selectTask, deselectTask, setAdd, setDelete, addToProjectPlan,
    removeFromProjectPlan, hany, Bool.false_eq_true, if_false, if_neg hsel]
  refine congrArg₂ SelectionState.mk ?_ ?_
  · rw [List.filter_append]
    have h2 : List.filter (fun y => decide (y ≠ t.id)) [t.id] = [] := by simp
    rw [h2, List.append_nil]
    refine List.filter_eq_self.mpr fun a ha => ?_
    simp only [decide_eq_true_eq]
    exact fun e => hsel (e ▸ ha)
  · rw [List.filter_append]
    have h2 : List.filter (fun u => decide (u.id ≠ t.id)) [t] = [] := by simp
    rw [h2, List.append_nil]
    refine List.filter_eq_self.mpr fun u hu => ?_
    simp only [decide_eq_true_eq]
    exact hplan u hu

/-- Claim C7, counterexample: in the state where `taskAlpha` is
already selected, selecting it again and then deselecting it empties
the state instead of restoring it. -/
theorem claim7_counterexample :
    deselectTask
        (selectTask { selectedTasks := ["a"], projectPlan := [taskAlpha] } taskAlpha)
        taskAlpha.id
      ≠ { selectedTasks := ["a"], projectPlan := [taskAlpha] } := by decide

/-- Claim C7, witness: the amended inverse law at a state not
containing the task. -/
theorem claim7_witness :
    deselectTask
        (selectTask { selectedTasks := ["b"], projectPlan := [taskBeta] } taskAlpha)
        taskAlpha.id
      = { selectedTasks := ["b"], projectPlan := [taskBeta] } :=
  claim7_select_deselect_inverse _ taskAlpha (by decide) (by decide)

/-! ## Claims about the timeline -/

/-- The fold of `generateTimeline` from any accumulator is the closed
form from the running start. -/
theorem foldl_timelineStep (plan : List Task) :
    ∀ (acc : List TimelineEntry) (s : Nat),
      plan.foldl timelineStep (acc, s)
        = (acc ++ timelineFrom s plan, s + totalDuration plan) := by
  induction plan with
  | nil => intro acc s; simp [timelineFrom, totalDuration]
  | cons t ts ih =>
    intro acc s
    rw [List.foldl_cons,
      show timelineStep (acc, s) t
          = (acc ++ [{ task := t.title, startDay := s + 1,
                       endDay := s + parseDuration t.duration,
                       duration := parseDuration t.duration }],
             s + parseDuration t.duration) from rfl,
      ih]
    simp [timelineFrom, totalDuration, Nat.add_assoc]

/-- `generateTimeline` in closed form. -/
theorem generateTimeline_eq (plan : List Task) :
    generateTimeline plan = (timelineFrom 0 plan, totalDuration plan) := by
  simpa [generateTimeline] using foldl_timelineStep plan [] 0

/-- The first entry, when present, starts one day after the running
start. -/
theorem timelineFrom_head_start (s : Nat) (l : List Task) :
    ∀ e, (timelineFrom s l).head? = some e → e.startDay = s + 1 := by
  cases l with
  | nil => intro e h; simp [timelineFrom] at h
  | cons t ts =>
    intro e h
    simp only [timelineFrom, List.head?_cons, Option.some_inj] at h
    rw [← h]

/-- Consecutive timeline entries are back to back. -/
theorem timelineFrom_chain (l : List Task) :
    ∀ s, List.Chain' (fun a b => b.startDay = a.endDay + 1) (timelineFrom s l) := by
  induction l with
  | nil => intro s; simp [timelineFrom]
  | cons t ts ih =>
    intro s
    simp only [timelineFrom]
    rw [List.chain'_cons']
    refine ⟨?_, ih _⟩
    intro y hy
    rw [timelineFrom_head_start (s + parseDuration t.duration) ts y hy]

/-- The last entry, when present, ends at the running start plus the
total duration. -/
theorem timelineFrom_getLast_endDay (l : List Task) :
    ∀ s : Nat, l ≠ [] →
      ∃ e, (timelineFrom s l).getLast? = some e ∧ e.endDay = s + totalDuration l := by
  induction l with
  | nil => intro s h; exact absurd rfl h
  | cons t ts ih =>
    intro s _
    cases ts with
    | nil =>
      exact ⟨{ task := t.title, startDay := s + 1,
               endDay := s + parseDuration t.duration,
               duration := parseDuration t.duration },
             by simp [timelineFrom], by simp [totalDuration]⟩
    | cons t2 ts2 =>
      obtain ⟨e, h1, h2⟩ := ih (s + parseDuration t.duration) (by simp)
      refine ⟨e, ?_, ?_⟩
      · simp only [timelineFrom] at h1 ⊢
        rw [List.getLast?_cons_cons]
        exact h1
      · rw [h2]
        simp only [totalDuration, List.map_cons, List.sum_cons]
        omega

/-- The timeline lists the plan titles in plan order. -/
theorem timelineFrom_map_task (l : List Task) :
    ∀ s, (timelineFrom s l).map TimelineEntry.task = l.map Task.title := by
  induction l with
  | nil => intro s; rfl
  | cons t ts ih => intro s; simp [timelineFrom, ih]

/-- Claim C3 (confirmed).  `generateTimeline` produces one entry per
task in plan order; the first entry starts at day 1, every subsequent
entry starts the day after the previous entry ends, and `totalDays`
is the end day of the last entry (0 for the empty plan); the quoted
example with durations 3, 1, 4 yields day ranges 1-3, 4-4, 5-8 and
`totalDays` 8. -/
theorem claim3_timeline_sequential :
    (∀ plan : List Task,
       (generateTimeline plan).1.map TimelineEntry.task = plan.map Task.title ∧
       (∀ e, (generateTimeline plan).1.head? = some e → e.startDay = 1) ∧
       List.Chain' (fun a b => b.startDay = a.endDay + 1) (generateTimeline plan).1 ∧
       (∀ e, (generateTimeline plan).1.getLast? = some e →
          (generateTimeline plan).2 = e.endDay) ∧
       (plan = [] → (generateTimeline plan).2 = 0)) ∧
    generateTimeline [taskAlpha, taskBeta, taskGamma]
      = ([{ task := "A", startDay := 1, endDay := 3, duration := 3 },
          { task := "B", startDay := 4, endDay := 4, duration := 1 },
          { task := "C", startDay := 5, endDay := 8, duration := 4 }], 8) := by
  refine ⟨?_, by decide⟩
  intro plan
  rw [generateTimeline_eq]
  refine ⟨timelineFrom_map_task plan 0, ?_, timelineFrom_chain plan 0, ?_, ?_⟩
  · intro e h
    rw [timelineFrom_head_start 0 plan e h]
  · intro e h
    cases plan with
    | nil => simp [timelineFrom] at h
    | cons t ts =>
      obtain ⟨e2, h1, h2⟩ := timelineFrom_getLast_endDay (t :: ts) 0 (by simp)
      rw [h] at h1
      rw [Option.some_inj.mp h1, h2, Nat.zero_add]
  · intro h
    subst h
    rfl

/-- Claim C3, witness: `totalDays` of the example plan equals the end
day of its last entry, by the theorem applied to that plan. -/
theorem claim3_witness :
    (generateTimeline [taskAlpha, taskBeta, taskGamma]).2
      = ({ task := "C", startDay := 5, endDay := 8, duration := 4 } : TimelineEntry).endDay :=
  (claim3_timeline_sequential.1 [taskAlpha, taskBeta, taskGamma]).2.2.2.1
    { task := "C", startDay := 5, endDay := 8, duration := 4 } (by decide)

/-! ## Claims about plan generation -/

/-- Claim C5 (confirmed).  A generation request with zero selected
tasks is rejected with the user-facing validation message and builds
no document; with a non-zero selected count the build always succeeds
and yields a document. -/
theorem claim5_empty_plan_rejected :
    ∀ (today : Nat) (st : SelectionState),
      (st.selectedTasks.length = 0 →
        generateProjectPlan today st
          = Except.error "Please select at least one task to create a project plan.") ∧
      (st.selectedTasks.length ≠ 0 →
        ∃ d : PlanDocument, generateProjectPlan today st = Except.ok d) := by
  intro today st
  constructor
  · intro h
    simp [generateProjectPlan, h]
  · intro h
    refine ⟨createPlanDocument today st (groupTasksByCategory st.projectPlan)
        (generateTimeline st.projectPlan), ?_⟩
    simp [generateProjectPlan, h]

/-- Claim C5, witness: the rejection at the empty state and the
success at a one-task state. -/
theorem claim5_witness :
    generateProjectPlan 0 { selectedTasks := [], projectPlan := [] }
        = Except.error "Please select at least one task to create a project plan." ∧
    ∃ d, generateProjectPlan 0 { selectedTasks := ["a"], projectPlan := [taskAlpha] }
        = Except.ok d :=
  ⟨(claim5_empty_plan_rejected 0 _).1 rfl,
   (claim5_empty_plan_rejected 0 _).2 (by decide)⟩

/-! ## Claims about grouping -/

/-- When no key is an array index, the object enumeration order is the
insertion order. -/
theorem objectKeysOrder_no_index (keys : List String)
    (h : ∀ s ∈ keys, isArrayIndex s = none) : objectKeysOrder keys = keys := by
  unfold objectKeysOrder
  have h1 : keys.filterMap (fun s => (isArrayIndex s).map (fun n => (s, n))) = [] := by
    rw [List.filterMap_eq_nil_iff]
    intro s hs
    rw [h s hs]
    rfl
  have h2 : keys.filter (fun s => (isArrayIndex s).isNone) = keys :=
    List.filter_eq_self.mpr fun s hs => by rw [h s hs]; rfl
  rw [h1, h2]
  rfl

/-- An element reached by folding `setAdd` comes from the accumulator
or from the folded list. -/
theorem mem_foldl_setAdd (cats : List String) :
    ∀ (acc : List String) (x : String),
      x ∈ cats.foldl setAdd acc → x ∈ acc ∨ x ∈ cats := by
  induction cats with
  | nil => exact fun acc x h => Or.inl h
  | cons c cs ih =>
    intro acc x h
    rw [List.foldl_cons] at h
    rcases ih (setAdd acc c) x h with h2 | h2
    · unfold setAdd at h2
      by_cases hc : c ∈ acc
      · rw [if_pos hc] at h2
        exact Or.inl h2
      · rw [if_neg hc] at h2
        rcases List.mem_append.mp h2 with h3 | h3
        · exact Or.inl h3
        · exact Or.inr (by rw [List.mem_singleton.mp h3]; exact List.mem_cons_self c cs)
    · exact Or.inr (List.mem_cons_of_mem c h2)

/-- The first-occurrence key list only contains keys of the input. -/
theorem mem_insertionOrderKeys (cats : List String) (x : String)
    (h : x ∈ insertionOrderKeys cats) : x ∈ cats := by
  rcases mem_foldl_setAdd cats [] x h with h2 | h2
  · simp at h2
  · exact h2

/-- Claim C4 (corrected).  The claim states the bucket order is the
first-occurrence order for every possible category string; the source
stores buckets in a plain object, so array-index-like category names
are enumerated first in ascending numeric order.  Amended: whenever no
category of the plan is an array-index string, the buckets appear in
first-occurrence order, each carrying its tasks in plan order, as in
the quoted x, y, x, z example. -/
theorem claim4_group_first_occurrence :
    (∀ plan : List Task,
       (∀ t ∈ plan, isArrayIndex t.category = none) →
       groupTasksByCategory plan
         = (insertionOrderKeys (plan.map Task.category)).map
             (fun c => (c, plan.filter (fun task => task.category = c)))) ∧
    (groupTasksByCategory [taskX1, taskY, taskX2, taskZ]).map Prod.fst
        = ["x", "y", "z"] ∧
    groupTasksByCategory [taskX1, taskY, taskX2, taskZ]
      = [("x", [taskX1, taskX2]), ("y", [taskY]), ("z", [taskZ])] := by
  refine ⟨?_, by decide, by decide⟩
  intro plan h
  unfold groupTasksByCategory
  rw [objectKeysOrder_no_index]
  intro s hs
  obtain ⟨t, ht, hts⟩ := List.mem_map.mp (mem_insertionOrderKeys _ s hs)
  rw [← hts]
  exact h t ht

/-- Claim C4, counterexample: with categories "b" then "1" (in plan
order), the buckets are enumerated as "1" before "b", not in
first-occurrence order. -/
theorem claim4_counterexample :
    (groupTasksByCategory [taskCatB, taskCatOne]).map Prod.fst = ["1", "b"] ∧
    insertionOrderKeys ([taskCatB, taskCatOne].map Task.category) = ["b", "1"] ∧
    (groupTasksByCategory [taskCatB, taskCatOne]).map Prod.fst
      ≠ insertionOrderKeys ([taskCatB, taskCatOne].map Task.category) := by decide

/-- Claim C4, witness: the amended theorem applied to a one-task plan
with a non-index category. -/
theorem claim4_witness :
    groupTasksByCategory [taskCatB] = [("b", [taskCatB])] :=
  (claim4_group_first_occurrence.1 [taskCatB] (by decide)).trans (by decide)

/-! ## Claims about persistence -/

/-- Claim C8 (corrected).  The claim states that an absent or corrupt
persisted value always ends the load in the empty state with the
condition logged; the source instead recovers per value.  Amended: a
corrupt plan value aborts the load before anything is applied (empty
state, logged); a corrupt ids value is logged but keeps an already
loaded plan; an absent value is skipped silently, leaving only its own
component empty while the other value, when present and valid, is
still loaded; the load itself never fails. -/
theorem claim8_load_fallback :
    ∀ s : Storage,
      ((loadSavedPlan emptySelection s).2 = true ↔
        s.uxProjectPlan = some StoredPlan.corrupt ∨
          (s.uxProjectPlan ≠ some StoredPlan.corrupt ∧
            s.uxSelectedTasks = some StoredIds.corrupt)) ∧
      (s.uxProjectPlan = some StoredPlan.corrupt →
        (loadSavedPlan emptySelection s).1 = emptySelection) ∧
      (∀ p, s.uxProjectPlan = some (StoredPlan.parsed p) →
        (loadSavedPlan emptySelection s).1.projectPlan = p) ∧
      (s.uxProjectPlan = none → (loadSavedPlan emptySelection s).1.projectPlan = []) ∧
      ((s.uxSelectedTasks = none ∨ s.uxSelectedTasks = some StoredIds.corrupt) →
        (loadSavedPlan emptySelection s).1.selectedTasks = []) := by
  intro s
  obtain ⟨ps, sl⟩ := s
  rcases ps with _ | (_ | p) <;> rcases sl with _ | (_ | ids) <;>
    simp [loadSavedPlan, loadSavedTasks, emptySelection]

/-- Claim C8, counterexample: with the plan value absent and a valid
ids value present, the load ends in a non-empty state (the ids are
restored) and nothing is logged, contradicting the claimed fall back
to the empty state. -/
theorem claim8_counterexample :
    (loadSavedPlan emptySelection
        { uxProjectPlan := none,
          uxSelectedTasks := some (StoredIds.parsed ["a"]) }).1 ≠ emptySelection ∧
    (loadSavedPlan emptySelection
        { uxProjectPlan := none,
          uxSelectedTasks := some (StoredIds.parsed ["a"]) }).2 = false := by decide

/-- Claim C8, witness: the amended theorem applied to a corrupt plan
slot, which does end the load in the empty state. -/
theorem claim8_witness :
    (loadSavedPlan emptySelection
        { uxProjectPlan := some StoredPlan.corrupt,
          uxSelectedTasks := some (StoredIds.parsed ["a"]) }).1 = emptySelection :=
  (claim8_load_fallback _).2.1 rfl

/-- Claim C9 (confirmed).  Persisting a state with `savePlan` and
restoring from the two persisted values reproduces the plan exactly:
same records with all field values, in the same order. -/
theorem claim9_roundtrip :
    ∀ st : SelectionState,
      (loadSavedPlan emptySelection (savePlan st)).1.projectPlan = st.projectPlan := by
  intro st
  rfl

/-! ## Claims about category-name formatting -/

/-- Upper-casing cannot produce a hyphen. -/
theorem jsToUpperChar_ne_hyphen (c : Char) (h : c ≠ '-') : jsToUpperChar c ≠ '-' := by
  unfold jsToUpperChar
  by_cases hc : 97 ≤ c.toNat ∧ c.toNat ≤ 122
  · rw [if_pos hc]
    obtain ⟨h1, h2⟩ := hc
    generalize hg : c.toNat - 32 = m
    have h3 : 65 ≤ m := by omega
    have h4 : m ≤ 90 := by omega
    interval_cases m <;> decide
  · rw [if_neg hc]
    exact h

/-- Claim C10 (corrected).  The claim states the formatting replaces
only the first hyphen of the category, so later hyphens always remain;
the source applies `replace` to `slice(1)`, so a category starting
with a hyphen keeps that leading hyphen and instead has its next
hyphen replaced.  Amended: for every category whose first character is
not a hyphen the formatting uppercases the first character and
replaces only the first hyphen (later hyphens remain), and all three
rendered outputs apply this same formatting to every bucket name. -/
theorem claim10_format_category :
    (∀ category : String, category.data.head? ≠ some '-' →
       formatCategoryName category = claimedFormatCategoryName category) ∧
    ∀ d : PlanDocument,
      planModalCategoryHeadings d
          = d.tasksByCategory.map (fun e => formatCategoryName e.1) ∧
      emailBodyCategoryHeadings d
          = d.tasksByCategory.map (fun e => formatCategoryName e.1) ∧
      pdfDocumentCategoryHeadings d
          = d.tasksByCategory.map (fun e => formatCategoryName e.1) := by
  refine ⟨?_, fun d => ⟨rfl, rfl, rfl⟩⟩
  intro category h
  obtain ⟨cs⟩ := category
  cases cs with
  | nil => rfl
  | cons c cs =>
    have hc : c ≠ '-' := fun e => h (by simp [e])
    simp only [formatCategoryName, claimedFormatCategoryName]
    congr 1
    rw [replaceFirstHyphen, if_neg (jsToUpperChar_ne_hyphen c hc)]

/-- Claim C10, counterexample: the category "-a-b" contains two
hyphens, and the rendered name is "-a b": the leading hyphen is kept
and the second hyphen is the one replaced, while the claimed rule
would give " a-b". -/
theorem claim10_counterexample :
    formatCategoryName "-a-b" = "-a b" ∧
    claimedFormatCategoryName "-a-b" = " a-b" ∧
    formatCategoryName "-a-b" ≠ claimedFormatCategoryName "-a-b" := by decide

/-- Claim C10, witness: the amended rule at a category with two
hyphens and no leading hyphen; the second hyphen remains. -/
theorem claim10_witness :
    formatCategoryName "user-research-ops" = claimedFormatCategoryName "user-research-ops" ∧
    formatCategoryName "user-research-ops" = "User research-ops" :=
  ⟨claim10_format_category.1 "user-research-ops" (by decide), by decide⟩

end ProjectPlanner
